import Mathlib

/-!
Shallow embedding of `video2x/interpolator.py` (the `Interpolator` worker
process) and verification of the specified properties of its control loop,
difference estimator, processor registry and output-slot writes.

Images are modelled as a channel count together with a list of pixels, each
pixel a list of per-channel values (rationals, standing for the exact pixel
arithmetic PIL performs on 8-bit channels).  The external `Rife` processor
class is opaque in the source (a third-party library), so the embedding is
parametrised by its constructor `rife : Nat -> Option Processor`; `none`
models a construction failure (a raised exception).
-/

/-- An in-memory raster: a channel count and a list of pixels, each pixel a
list of per-channel values. -/
structure Image where
  channels : Nat
  pixels : List (List ℚ)
deriving DecidableEq, Repr

/-- The operation PIL.ImageChops.difference: the per-pixel, per-channel
absolute difference of two images of the same mode and size. -/
def ImageChops_difference (a b : Image) : Image :=
  { channels := a.channels
    pixels := List.zipWith (fun p q => List.zipWith (fun x y => |x - y|) p q) a.pixels b.pixels }

/-- The statistic PIL.ImageStat.Stat(img).mean: the per-band list of means,
one entry per channel, each entry the sum of that channel's values over all
pixels divided by the pixel count. -/
def ImageStat_mean (img : Image) : List ℚ :=
  (List.range img.channels).map
    (fun c => ((img.pixels.map (fun p => p.getD c 0)).sum) / (img.pixels.length : ℚ))

/-- The difference percentage computed by `Interpolator.run`:
`sum(difference_stat.mean) / (len(difference_stat.mean) * 255) * 100`
on `difference = ImageChops.difference(image0, image1)`. -/
def diffPercent (a b : Image) : ℚ :=
  let m := ImageStat_mean (ImageChops_difference a b)
  m.sum / ((m.length : ℚ) * 255) * 100

/-- The Difference Estimator as the spec words it: per-pixel, per-channel
absolute difference; per-channel means over all pixels; the average of the
per-channel means, normalised by the maximum channel value 255 and scaled to
a percentage. -/
def specDiffPercent (a b : Image) : ℚ :=
  let d := ImageChops_difference a b
  let m := ImageStat_mean d
  (m.sum / (d.channels : ℚ)) / 255 * 100

/-- An interpolation processor instance (the external `Rife` objects are
opaque: all this core uses is their `process(image0, image1)` method). -/
structure Processor where
  process : Image → Image → Image

/-- A job dequeued from `processing_queue`:
`(frame_index, (image0, image1), (difference_threshold, algorithm))`.
`image0` is `None` exactly for the priming job of a sequence. -/
structure Job where
  frame_index : Nat
  image0 : Option Image
  image1 : Image
  difference_threshold : ℚ
  algorithm : String

/-- The registry ALGORITHM_CLASSES, in the source the dict with the single
entry mapping "rife" to the Rife class, parametrised here by the external
Rife constructor; looking up any other name has no entry (a KeyError in the
source). -/
def ALGORITHM_CLASSES (rife : Nat → Option Processor) (name : String) :
    Option (Nat → Option Processor) :=
  if name = "rife" then some rife else none

/-- The mutable state of one `Interpolator` worker: the job queue it
consumes, the shared output slot list (`processed_frames`), the shared pause
flag, its running flag and its per-worker processor cache
(`processor_objects`). -/
structure WorkerState where
  processing_queue : List Job
  processed_frames : List (Option Image)
  pause : Bool
  running : Bool
  processor_objects : List (String × Processor)

/-- Observable actions of one loop iteration, in program order. -/
inductive Event where
  | dequeued (j : Job)
  | ratioComputed (r : ℚ)
  | registryAccess (name : String)
  | constructed (name : String)
  | invoked (p : Processor) (a b : Image)
  | wrote (i : Nat) (img : Image)

/-- Outcome of one loop-body iteration: the loop either continues with the
new state, or breaks out of the `while` (flag observed false, or an
exception reached the outer handlers). -/
inductive StepResult where
  | cont (s : WorkerState)
  | halt (s : WorkerState)

/-- The state carried by either outcome. -/
def StepResult.state : StepResult → WorkerState
  | .cont s => s
  | .halt s => s

/-- An item assignment `frames[i] = x` on a Python list: succeeds exactly
when `i` is in range, otherwise raises `IndexError` (modelled as `none`). -/
def setSlot (l : List (Option Image)) (i : Nat) (x : Image) :
    Option (List (Option Image)) :=
  if i < l.length then some (l.set i (some x)) else none

/-- Lines 97-100 of `Interpolator.run`: fetch the cached processor object
for `algorithm`; when absent, construct `ALGORITHM_CLASSES[algorithm](0)` and
cache it.  `none` models the exception paths (`KeyError` on an unknown name,
or a constructor failure). -/
def selectProcessor (rife : Nat → Option Processor)
    (cache : List (String × Processor)) (algorithm : String) :
    Option (Processor × List (String × Processor)) :=
  match List.lookup algorithm cache with
  | some p => some (p, cache)
  | none =>
    match ALGORITHM_CLASSES rife algorithm with
    | none => none
    | some ctor =>
      match ctor 0 with
      | none => none
      | some p => some (p, (algorithm, p) :: cache)

/-- Lines 108-111 of `Interpolator.run`: the three slot assignments, in
program order, on the state reached after the branch.  A failing assignment
(`IndexError`) propagates to the outer `except` and breaks the loop, keeping
the writes already performed. -/
def writeOutputs (s : WorkerState) (job : Job) (image0 interpolated : Image)
    (evs : List Event) : StepResult × List Event :=
  match (if job.frame_index = 1 then setSlot s.processed_frames 0 image0
         else some s.processed_frames) with
  | none => (StepResult.halt s, evs)
  | some f1 =>
    match setSlot f1 (job.frame_index * 2 - 1) interpolated with
    | none => (StepResult.halt { s with processed_frames := f1 },
               evs ++ if job.frame_index = 1 then [Event.wrote 0 image0] else [])
    | some f2 =>
      match setSlot f2 (job.frame_index * 2) job.image1 with
      | none => (StepResult.halt { s with processed_frames := f2 },
                 (evs ++ (if job.frame_index = 1 then [Event.wrote 0 image0] else [])) ++
                   [Event.wrote (job.frame_index * 2 - 1) interpolated])
      | some f3 => (StepResult.cont { s with processed_frames := f3 },
                 ((evs ++ (if job.frame_index = 1 then [Event.wrote 0 image0] else [])) ++
                   [Event.wrote (job.frame_index * 2 - 1) interpolated]) ++
                   [Event.wrote (job.frame_index * 2) job.image1])

/-- The slot list produced when all three assignments of lines 108-111
succeed: slot 0 (first job only), slot `2k-1`, then slot `2k`. -/
def framesAfter (frames : List (Option Image)) (job : Job) (a interp : Image) :
    List (Option Image) :=
  ((if job.frame_index = 1 then frames.set 0 (some a) else frames).set
    (job.frame_index * 2 - 1) (some interp)).set (job.frame_index * 2) (some job.image1)

/-- One iteration of the `while self.running is True` loop of
`Interpolator.run`: the top-of-loop flag test, the pause poll, the
non-blocking dequeue, the priming-job skip, the difference ratio, the
threshold branch, and the slot writes, together with the iteration's
observable events. -/
def interpolatorStep (rife : Nat → Option Processor) (s : WorkerState) :
    StepResult × List Event :=
  if s.running = true then
    if s.pause = true then (StepResult.cont s, [])
    else
      match s.processing_queue with
      | [] => (StepResult.cont s, [])
      | job :: rest =>
        match job.image0 with
        | none => (StepResult.cont { s with processing_queue := rest }, [Event.dequeued job])
        | some image0 =>
          if diffPercent image0 job.image1 < job.difference_threshold then
            match (List.lookup job.algorithm s.processor_objects).isSome,
                  selectProcessor rife s.processor_objects job.algorithm with
            | _, none =>
                (StepResult.halt { s with processing_queue := rest },
                 [Event.dequeued job, Event.ratioComputed (diffPercent image0 job.image1),
                  Event.registryAccess job.algorithm])
            | hit, some (p, cache2) =>
                writeOutputs { s with processing_queue := rest, processor_objects := cache2 }
                  job image0 (p.process image0 job.image1)
                  ([Event.dequeued job, Event.ratioComputed (diffPercent image0 job.image1)] ++
                   (if hit then [] else
                     [Event.registryAccess job.algorithm, Event.constructed job.algorithm]) ++
                   [Event.invoked p image0 job.image1])
          else
            writeOutputs { s with processing_queue := rest } job image0 image0
              [Event.dequeued job, Event.ratioComputed (diffPercent image0 job.image1)]
  else (StepResult.halt s, [])

/-- The `while` loop itself, run for at most `fuel` iterations: iterate
`interpolatorStep` until it halts. -/
def runLoop (rife : Nat → Option Processor) : Nat → WorkerState → WorkerState
  | 0, s => s
  | fuel + 1, s =>
    match (interpolatorStep rife s).1 with
    | .cont s2 => runLoop rife fuel s2
    | .halt s2 => s2

/-- The SIGTERM handler `Interpolator._stop`: it sets `self.running = False`. -/
def Interpolator_stop (s : WorkerState) : WorkerState := { s with running := false }

/-- Whether an event is an access of the algorithm registry. -/
def Event.isRegistryAccess : Event → Bool
  | .registryAccess _ => true
  | _ => false

/-- Whether an event is a processor construction. -/
def Event.isConstruct : Event → Bool
  | .constructed _ => true
  | _ => false

/-- Whether an event is a processor invocation. -/
def Event.isInvoke : Event → Bool
  | .invoked _ _ _ => true
  | _ => false

/-- A one-channel, one-pixel black test image. -/
def imgA : Image := { channels := 1, pixels := [[0]] }

/-- A one-channel, one-pixel white test image. -/
def imgB : Image := { channels := 1, pixels := [[255]] }

/-- A stub processor returning its first input, standing for a mocked
interpolation algorithm. -/
def stubProcessor : Processor := { process := fun a _ => a }

/-- A stub Rife constructor that always succeeds with `stubProcessor`. -/
def stubRife : Nat → Option Processor := fun _ => some stubProcessor

/-- A first job: frame 1, both frames present, threshold 200 (so the ratio
100 of `imgA` against `imgB` falls below it), algorithm "rife". -/
def job1 : Job :=
  { frame_index := 1, image0 := some imgA, image1 := imgB,
    difference_threshold := 200, algorithm := "rife" }

/-- An initial worker state holding `job1` and three empty output slots. -/
def wInit : WorkerState :=
  { processing_queue := [job1], processed_frames := [none, none, none],
    pause := false, running := true, processor_objects := [] }

/-- The worker state after `wInit` processes `job1`. -/
def wOut1 : WorkerState :=
  { processing_queue := [], processed_frames := [some imgA, some imgA, some imgB],
    pause := false, running := true, processor_objects := [("rife", stubProcessor)] }

/-- The events of the iteration taking `wInit` to `wOut1`. -/
def evs1 : List Event :=
  [.dequeued job1, .ratioComputed 100, .registryAccess "rife", .constructed "rife",
   .invoked stubProcessor imgA imgB, .wrote 0 imgA, .wrote 1 imgA, .wrote 2 imgB]

/-- A job naming an algorithm absent from the registry, with a threshold
high enough that the synthesis branch is taken. -/
def jobBad : Job :=
  { frame_index := 1, image0 := some imgA, image1 := imgB,
    difference_threshold := 200, algorithm := "nope" }

/-- An initial worker state holding `jobBad`. -/
def wBad : WorkerState :=
  { processing_queue := [jobBad], processed_frames := [none, none, none],
    pause := false, running := true, processor_objects := [] }

/-- A job naming an unknown algorithm whose threshold 50 lies below the
ratio 100, so the scene-change branch is taken. -/
def jobScene : Job :=
  { frame_index := 2, image0 := some imgA, image1 := imgB,
    difference_threshold := 50, algorithm := "nope" }

/-- An initial worker state holding `jobScene` and five empty slots. -/
def wScene : WorkerState :=
  { processing_queue := [jobScene], processed_frames := [none, none, none, none, none],
    pause := false, running := true, processor_objects := [] }

/-- A priming job: its first frame is absent. -/
def jobPrime : Job :=
  { frame_index := 1, image0 := none, image1 := imgB,
    difference_threshold := 10, algorithm := "rife" }

/-- An initial worker state holding `jobPrime`. -/
def wPrime : WorkerState :=
  { processing_queue := [jobPrime], processed_frames := [none, none, none],
    pause := false, running := true, processor_objects := [] }

/-- A running worker state whose pause flag is set. -/
def wPaused : WorkerState :=
  { processing_queue := [job1], processed_frames := [none, none, none],
    pause := true, running := true, processor_objects := [] }

/-- C3: for images of identical dimensions the ratio computed by the code
equals the spec's formula: the average over channels of the per-channel mean
absolute difference, divided by 255, times 100. -/
theorem diffPercent_eq_specDiffPercent (a b : Image)
    (hch : a.channels = b.channels) (hpx : a.pixels.length = b.pixels.length) :
    diffPercent a b = specDiffPercent a b := by
  unfold diffPercent specDiffPercent
  simp only [ImageStat_mean, ImageChops_difference, List.length_map, List.length_range]
  rw [div_div]

/-- C3 witness: a concrete pair of one-channel one-pixel images. -/
theorem diffPercent_eq_specDiffPercent_witness :
    diffPercent { channels := 1, pixels := [[0]] } { channels := 1, pixels := [[255]] } =
      specDiffPercent { channels := 1, pixels := [[0]] } { channels := 1, pixels := [[255]] } :=
  diffPercent_eq_specDiffPercent _ _ rfl rfl

/-- Evaluation of the difference percentage on the concrete test pair: a
black and a white one-pixel image differ by the full 100 percent. -/
theorem diffPercent_imgA_imgB : diffPercent imgA imgB = 100 := by
  norm_num [diffPercent, ImageStat_mean, ImageChops_difference, imgA, imgB,
    List.range_succ]

/-- When every target index is in range, the three slot assignments of
lines 108-111 all succeed and the iteration continues with the three slots
updated in program order. -/
theorem writeOutputs_success (s : WorkerState) (job : Job) (a interp : Image)
    (evs : List Event) (hk : 1 ≤ job.frame_index)
    (hlen : job.frame_index * 2 < s.processed_frames.length) :
    writeOutputs s job a interp evs =
      (StepResult.cont { s with processed_frames := framesAfter s.processed_frames job a interp },
       ((evs ++ (if job.frame_index = 1 then [Event.wrote 0 a] else [])) ++
         [Event.wrote (job.frame_index * 2 - 1) interp]) ++
         [Event.wrote (job.frame_index * 2) job.image1]) := by
  have h0 : 0 < s.processed_frames.length := by omega
  have h1 : job.frame_index * 2 - 1 < s.processed_frames.length := by omega
  by_cases hk1 : job.frame_index = 1
  · have h2 : 1 < s.processed_frames.length := by omega
    have h3 : 2 < s.processed_frames.length := by omega
    simp [writeOutputs, setSlot, framesAfter, hk1, h0, h2, h3, List.length_set]
  · simp [writeOutputs, setSlot, framesAfter, hk1, h1, hlen, List.length_set]

/-- Inversion: when the three slot assignments let the iteration continue,
every index was in range and the new slot list is the three-write chain. -/
theorem writeOutputs_cont_inv (s : WorkerState) (job : Job) (a interp : Image)
    (evs : List Event) (s' : WorkerState) (evs' : List Event)
    (h : writeOutputs s job a interp evs = (StepResult.cont s', evs')) :
    job.frame_index * 2 < s.processed_frames.length ∧
    s' = { s with processed_frames := framesAfter s.processed_frames job a interp } := by
  unfold writeOutputs at h
  split at h
  · simp at h
  · rename_i f1 heq
    split at h
    · simp at h
    · rename_i f2 heq2
      split at h
      · simp at h
      · rename_i f3 heq3
        simp only [Prod.mk.injEq, StepResult.cont.injEq] at h
        obtain ⟨hs', -⟩ := h
        simp only [setSlot, Option.ite_none_right_eq_some, Option.some.injEq] at heq2 heq3
        obtain ⟨hb2, hf2⟩ := heq2
        obtain ⟨hb3, hf3⟩ := heq3
        have hf1 : f1 = (if job.frame_index = 1 then s.processed_frames.set 0 (some a)
            else s.processed_frames) ∧ f1.length = s.processed_frames.length := by
          by_cases hk1 : job.frame_index = 1 <;>
            simp only [hk1, if_true, if_false, setSlot, Option.ite_none_right_eq_some,
              Option.some.injEq, reduceIte] at heq ⊢
          · exact ⟨heq.2.symm, by rw [← heq.2]; simp⟩
          · exact ⟨heq.symm, by rw [← heq]⟩
        constructor
        · have : f2.length = s.processed_frames.length := by
            rw [← hf2, List.length_set, hf1.2]
          omega
        · rw [← hs']
          simp only [framesAfter, ← hf1.1, hf2, hf3]

/-- The slot assignments of a job whose frame index is neither 0 nor 1 never
touch slot 0, whether they all succeed or stop at an out-of-range index. -/
theorem writeOutputs_slot0 (s : WorkerState) (job : Job) (a interp : Image)
    (evs : List Event) (hk1 : job.frame_index ≠ 1) (hk : 1 ≤ job.frame_index) :
    (((writeOutputs s job a interp evs).1).state).processed_frames[0]? =
      s.processed_frames[0]? := by
  have h3 : job.frame_index * 2 - 1 ≠ 0 := by omega
  have h4 : job.frame_index * 2 ≠ 0 := by omega
  simp only [writeOutputs, if_neg hk1]
  split
  · simp [StepResult.state]
  · rename_i f2 heq2
    simp only [setSlot, Option.ite_none_right_eq_some, Option.some.injEq] at heq2
    split
    · simp only [StepResult.state, ← heq2.2]
      exact List.getElem?_set_ne h3
    · rename_i f3 heq3
      simp only [setSlot, Option.ite_none_right_eq_some, Option.some.injEq] at heq3
      simp only [StepResult.state, ← heq3.2, ← heq2.2]
      rw [List.getElem?_set_ne h4, List.getElem?_set_ne h3]

/-- Setting slots `2k-1` and `2k` (and 0 for the first job) preserves the
length of the slot list. -/
theorem framesAfter_length (frames : List (Option Image)) (job : Job)
    (a interp : Image) :
    (framesAfter frames job a interp).length = frames.length := by
  by_cases hk1 : job.frame_index = 1 <;> simp [framesAfter, hk1, List.length_set]

/-- After the three writes, slot `2k` holds the job's second input frame. -/
theorem framesAfter_slot_even (frames : List (Option Image)) (job : Job)
    (a interp : Image) (hlen : job.frame_index * 2 < frames.length) :
    (framesAfter frames job a interp)[job.frame_index * 2]? = some (some job.image1) := by
  have hx : ((if job.frame_index = 1 then frames.set 0 (some a) else frames).set
      (job.frame_index * 2 - 1) (some interp)).length = frames.length := by
    by_cases hk1 : job.frame_index = 1 <;> simp [hk1, List.length_set]
  rw [framesAfter]
  exact List.getElem?_set_eq_of_lt _ (by rw [hx]; exact hlen)

/-- After the three writes, slot `2k-1` holds the interpolated frame. -/
theorem framesAfter_slot_odd (frames : List (Option Image)) (job : Job)
    (a interp : Image) (hk : 1 ≤ job.frame_index)
    (hlen : job.frame_index * 2 < frames.length) :
    (framesAfter frames job a interp)[job.frame_index * 2 - 1]? = some (some interp) := by
  have hne : job.frame_index * 2 ≠ job.frame_index * 2 - 1 := by omega
  have hx : job.frame_index * 2 - 1 <
      (if job.frame_index = 1 then frames.set 0 (some a) else frames).length := by
    by_cases hk1 : job.frame_index = 1 <;> simp [hk1, List.length_set] <;> omega
  rw [framesAfter, List.getElem?_set_ne hne]
  exact List.getElem?_set_eq_of_lt _ hx

/-- After the three writes of the job with frame index 1, slot 0 holds the
job's first input frame. -/
theorem framesAfter_slot_zero (frames : List (Option Image)) (job : Job)
    (a interp : Image) (hk1 : job.frame_index = 1)
    (hlen : job.frame_index * 2 < frames.length) :
    (framesAfter frames job a interp)[0]? = some (some a) := by
  rw [framesAfter, hk1]
  simp only [if_true, reduceIte]
  rw [List.getElem?_set_ne (by omega), List.getElem?_set_ne (by omega)]
  exact List.getElem?_set_eq_of_lt _ (by omega)

/-- C6: a job whose first frame is absent is dequeued and dropped: the
iteration continues with only the dequeue event, all output slots, the
processor cache and the flags unchanged, no ratio computed and no processor
consulted. -/
theorem priming_job_discarded (rife : Nat → Option Processor) (s : WorkerState)
    (job : Job) (rest : List Job)
    (hrun : s.running = true) (hpause : s.pause = false)
    (hq : s.processing_queue = job :: rest) (h0 : job.image0 = none) :
    interpolatorStep rife s =
      (StepResult.cont { s with processing_queue := rest }, [Event.dequeued job]) := by
  simp [interpolatorStep, hrun, hpause, hq, h0]

/-- C6 witness: the concrete priming job is dropped with no other effect. -/
theorem priming_job_discarded_witness :
    interpolatorStep stubRife wPrime =
      (StepResult.cont { wPrime with processing_queue := [] }, [Event.dequeued jobPrime]) :=
  priming_job_discarded stubRife wPrime jobPrime [] rfl rfl rfl rfl

/-- C7: an iteration that begins with the pause flag set performs no dequeue
and no write (the state, including the queue and all slots, is returned
unchanged with no events), and any number of further iterations under the
set flag leave the state unchanged, so no job is lost or reordered. -/
theorem pause_prevents_dequeue (rife : Nat → Option Processor) (s : WorkerState)
    (hrun : s.running = true) (hpause : s.pause = true) :
    interpolatorStep rife s = (StepResult.cont s, []) ∧
    ∀ fuel, runLoop rife fuel s = s := by
  have hstep : interpolatorStep rife s = (StepResult.cont s, []) := by
    simp [interpolatorStep, hrun, hpause]
  refine ⟨hstep, fun fuel => ?_⟩
  induction fuel with
  | zero => rfl
  | succ n ih => simp only [runLoop, hstep]; exact ih

/-- C7 witness: a concrete paused worker state is left untouched. -/
theorem pause_prevents_dequeue_witness :
    interpolatorStep stubRife wPaused = (StepResult.cont wPaused, []) ∧
    ∀ fuel, runLoop stubRife fuel wPaused = wPaused :=
  pause_prevents_dequeue stubRife wPaused rfl rfl

/-- C9: once the termination handler has set the running flag to false, the
loop top observes it and exits: the iteration halts with no dequeue, no
write and no event, and the loop returns the state unchanged for any number
of remaining iterations. -/
theorem termination_signal_observed (rife : Nat → Option Processor) (s : WorkerState) :
    (Interpolator_stop s).running = false ∧
    interpolatorStep rife (Interpolator_stop s) =
      (StepResult.halt (Interpolator_stop s), []) ∧
    ∀ fuel, runLoop rife fuel (Interpolator_stop s) = Interpolator_stop s := by
  have hstep : interpolatorStep rife (Interpolator_stop s) =
      (StepResult.halt (Interpolator_stop s), []) := by
    simp [interpolatorStep, Interpolator_stop]
  refine ⟨rfl, hstep, fun fuel => ?_⟩
  cases fuel with
  | zero => rfl
  | succ n => simp only [runLoop, hstep]

/-- C4: on a cache miss the worker constructs the processor through the
registry entry applied to device index 0 and caches it under that name;
afterwards the name resolves to that same instance and a repeated request
returns it with the cache unchanged.  On a cache hit the cached instance is
returned and no construction happens (the cache is returned as it was). -/
theorem registry_get_or_create (rife : Nat → Option Processor)
    (cache : List (String × Processor)) (name : String)
    (ctor : Nat → Option Processor) (p : Processor) :
    (List.lookup name cache = none → ALGORITHM_CLASSES rife name = some ctor →
      ctor 0 = some p →
      selectProcessor rife cache name = some (p, (name, p) :: cache) ∧
      List.lookup name ((name, p) :: cache) = some p ∧
      selectProcessor rife ((name, p) :: cache) name = some (p, (name, p) :: cache)) ∧
    (∀ q, List.lookup name cache = some q →
      selectProcessor rife cache name = some (q, cache)) := by
  constructor
  · intro hmiss hreg hctor
    have hlk : List.lookup name ((name, p) :: cache) = some p := by
      simp [List.lookup]
    refine ⟨?_, hlk, ?_⟩
    · simp [selectProcessor, hmiss, hreg, hctor]
    · simp [selectProcessor, hlk]
  · intro q hq
    simp [selectProcessor, hq]

/-- C4 witness: with an empty cache, "rife" is constructed at device 0,
cached, and the repeated request returns the identical cached instance. -/
theorem registry_get_or_create_witness :
    selectProcessor stubRife [] "rife" = some (stubProcessor, [("rife", stubProcessor)]) ∧
    List.lookup "rife" [("rife", stubProcessor)] = some stubProcessor ∧
    selectProcessor stubRife [("rife", stubProcessor)] "rife" =
      some (stubProcessor, [("rife", stubProcessor)]) :=
  (registry_get_or_create stubRife [] "rife" stubRife stubProcessor).1 rfl (by simp [ALGORITHM_CLASSES]) rfl

/-- C8: when resolving the job's algorithm fails (in particular when the
name has no registry entry), the iteration halts the loop at once: the
failing job's slots are all unwritten, nothing was constructed or invoked,
the cache is unchanged, and every not-yet-dequeued job stays in the queue;
the loop then performs no further iterations. -/
theorem construction_failure_terminates (rife : Nat → Option Processor)
    (s : WorkerState) (job : Job) (rest : List Job) (a : Image)
    (hrun : s.running = true) (hpause : s.pause = false)
    (hq : s.processing_queue = job :: rest) (ha : job.image0 = some a)
    (hlt : diffPercent a job.image1 < job.difference_threshold)
    (hfail : selectProcessor rife s.processor_objects job.algorithm = none) :
    interpolatorStep rife s =
      (StepResult.halt { s with processing_queue := rest },
       [Event.dequeued job, Event.ratioComputed (diffPercent a job.image1),
        Event.registryAccess job.algorithm]) ∧
    (∀ fuel, runLoop rife (fuel + 1) s = { s with processing_queue := rest }) ∧
    (List.lookup job.algorithm s.processor_objects = none →
      ALGORITHM_CLASSES rife job.algorithm = none →
      selectProcessor rife s.processor_objects job.algorithm = none) := by
  have hstep : interpolatorStep rife s =
      (StepResult.halt { s with processing_queue := rest },
       [Event.dequeued job, Event.ratioComputed (diffPercent a job.image1),
        Event.registryAccess job.algorithm]) := by
    simp [interpolatorStep, hrun, hpause, hq, ha, hlt, hfail]
  refine ⟨hstep, fun fuel => ?_, fun hmiss hreg => ?_⟩
  · simp only [runLoop, hstep]
  · simp [selectProcessor, hmiss, hreg]

/-- Inversion of a successfully completed iteration: with the worker
running, unpaused, a job with its first frame present at the head of the
queue, an iteration that continues the loop dequeued that job, wrote within
bounds, and took exactly one of the two threshold branches. -/
theorem interpolatorStep_cont_inv (rife : Nat → Option Processor)
    (s : WorkerState) (job : Job) (rest : List Job) (a : Image)
    (s2 : WorkerState) (evs : List Event)
    (hrun : s.running = true) (hpause : s.pause = false)
    (hq : s.processing_queue = job :: rest) (ha : job.image0 = some a)
    (hstep : interpolatorStep rife s = (StepResult.cont s2, evs)) :
    job.frame_index * 2 < s.processed_frames.length ∧
    ((diffPercent a job.image1 < job.difference_threshold ∧
      ∃ p cache2, selectProcessor rife s.processor_objects job.algorithm = some (p, cache2) ∧
        s2 = { s with processing_queue := rest, processor_objects := cache2, processed_frames := framesAfter s.processed_frames job a (p.process a job.image1) }) ∨
     (job.difference_threshold ≤ diffPercent a job.image1 ∧
      s2 = { s with processing_queue := rest, processed_frames := framesAfter s.processed_frames job a a })) := by
  simp only [interpolatorStep, hrun, hpause, hq, ha, Bool.false_eq_true, if_true,
    if_false, reduceIte] at hstep
  split at hstep
  · rename_i hlt
    split at hstep
    · simp at hstep
    · rename_i hit scrut p cache2 heq2
      have hinv := writeOutputs_cont_inv _ _ _ _ _ _ _ hstep
      refine ⟨hinv.1, Or.inl ⟨hlt, p, cache2, heq2, ?_⟩⟩
      rw [hinv.2]
      simp [hrun, hpause]
  · rename_i hge
    have hinv := writeOutputs_cont_inv _ _ _ _ _ _ _ hstep
    refine ⟨hinv.1, Or.inr ⟨not_lt.mp hge, ?_⟩⟩
    rw [hinv.2]
    simp [hrun, hpause]

/-- C1: whenever a job with its first frame present is processed and the
iteration completes without error, slot `2k-1` is populated and slot `2k`
holds exactly the job's second input frame, on either threshold branch. -/
theorem successful_job_populates_slots (rife : Nat → Option Processor)
    (s : WorkerState) (job : Job) (rest : List Job) (a : Image)
    (s2 : WorkerState) (evs : List Event)
    (hrun : s.running = true) (hpause : s.pause = false)
    (hq : s.processing_queue = job :: rest) (ha : job.image0 = some a)
    (hk : 1 ≤ job.frame_index)
    (hstep : interpolatorStep rife s = (StepResult.cont s2, evs)) :
    (∃ img, s2.processed_frames[job.frame_index * 2 - 1]? = some (some img)) ∧
    s2.processed_frames[job.frame_index * 2]? = some (some job.image1) := by
  obtain ⟨hlen, hcase⟩ :=
    interpolatorStep_cont_inv rife s job rest a s2 evs hrun hpause hq ha hstep
  rcases hcase with ⟨hlt, p, cache2, hsel, hs2⟩ | ⟨hge, hs2⟩ <;> subst hs2 <;>
    exact ⟨⟨_, framesAfter_slot_odd _ _ _ _ hk hlen⟩, framesAfter_slot_even _ _ _ _ hlen⟩

/-- C2: on a completed iteration, slot `2k-1` holds the selected processor
instance's output on the frame pair when the ratio is strictly below the
threshold, and exactly the first input frame when the ratio reaches the
threshold. -/
theorem threshold_branch_slot_value (rife : Nat → Option Processor)
    (s : WorkerState) (job : Job) (rest : List Job) (a : Image)
    (s2 : WorkerState) (evs : List Event)
    (hrun : s.running = true) (hpause : s.pause = false)
    (hq : s.processing_queue = job :: rest) (ha : job.image0 = some a)
    (hk : 1 ≤ job.frame_index)
    (hstep : interpolatorStep rife s = (StepResult.cont s2, evs)) :
    (diffPercent a job.image1 < job.difference_threshold →
      ∃ p cache2, selectProcessor rife s.processor_objects job.algorithm = some (p, cache2) ∧
        s2.processed_frames[job.frame_index * 2 - 1]? = some (some (p.process a job.image1))) ∧
    (job.difference_threshold ≤ diffPercent a job.image1 →
      s2.processed_frames[job.frame_index * 2 - 1]? = some (some a)) := by
  obtain ⟨hlen, hcase⟩ :=
    interpolatorStep_cont_inv rife s job rest a s2 evs hrun hpause hq ha hstep
  constructor
  · intro hlt
    rcases hcase with ⟨-, p, cache2, hsel, hs2⟩ | ⟨hge, -⟩
    · subst hs2
      exact ⟨p, cache2, hsel, framesAfter_slot_odd _ _ _ _ hk hlen⟩
    · exact absurd hlt (not_lt.mpr hge)
  · intro hge
    rcases hcase with ⟨hlt, -⟩ | ⟨-, hs2⟩
    · exact absurd hlt (not_lt.mpr hge)
    · subst hs2
      exact framesAfter_slot_odd _ _ _ _ hk hlen

/-- C5: a completed iteration of the job with frame index 1 sets slot 0 to
exactly that job's first input frame, and an iteration dequeuing any job
with a different (positive) frame index leaves slot 0 unchanged whatever
its outcome. -/
theorem slot_zero_first_job_only (rife : Nat → Option Processor)
    (s : WorkerState) (job : Job) (rest : List Job) (a : Image)
    (hrun : s.running = true) (hpause : s.pause = false)
    (hq : s.processing_queue = job :: rest) (ha : job.image0 = some a)
    (hk : 1 ≤ job.frame_index) :
    (job.frame_index = 1 → ∀ s2 evs,
      interpolatorStep rife s = (StepResult.cont s2, evs) →
      s2.processed_frames[0]? = some (some a)) ∧
    (job.frame_index ≠ 1 →
      ((interpolatorStep rife s).1.state).processed_frames[0]? =
        s.processed_frames[0]?) := by
  constructor
  · intro hk1 s2 evs hstep
    obtain ⟨hlen, hcase⟩ :=
      interpolatorStep_cont_inv rife s job rest a s2 evs hrun hpause hq ha hstep
    rcases hcase with ⟨-, p, cache2, -, hs2⟩ | ⟨-, hs2⟩ <;> subst hs2 <;>
      exact framesAfter_slot_zero _ _ _ _ hk1 hlen
  · intro hk1
    simp only [interpolatorStep, hrun, hpause, hq, ha, Bool.false_eq_true, if_true,
      if_false, reduceIte]
    split
    · split
      · simp [StepResult.state]
      · exact writeOutputs_slot0 _ _ _ _ _ hk1 hk
    · exact writeOutputs_slot0 _ _ _ _ _ hk1 hk

/-- C10: when the ratio reaches the threshold, the iteration completes
without consulting the registry, constructing or invoking any processor:
the cache is unchanged, the outcome is the same for every registry backend
(in particular for any unknown algorithm name), no registry, construction
or invocation event occurs, and slot `2k-1` receives the first input
frame. -/
theorem scene_change_bypasses_registry (rife : Nat → Option Processor)
    (s : WorkerState) (job : Job) (rest : List Job) (a : Image)
    (hrun : s.running = true) (hpause : s.pause = false)
    (hq : s.processing_queue = job :: rest) (ha : job.image0 = some a)
    (hk : 1 ≤ job.frame_index)
    (hge : job.difference_threshold ≤ diffPercent a job.image1)
    (hlen : job.frame_index * 2 < s.processed_frames.length) :
    ∃ s2 evs, interpolatorStep rife s = (StepResult.cont s2, evs) ∧
      s2.processor_objects = s.processor_objects ∧
      (∀ rife2, interpolatorStep rife2 s = interpolatorStep rife s) ∧
      (∀ e ∈ evs, e.isRegistryAccess = false ∧ e.isConstruct = false ∧
        e.isInvoke = false) ∧
      s2.processed_frames[job.frame_index * 2 - 1]? = some (some a) := by
  have hnlt : ¬ diffPercent a job.image1 < job.difference_threshold := not_lt.mpr hge
  have hw := writeOutputs_success { s with processing_queue := rest } job a a
    [Event.dequeued job, Event.ratioComputed (diffPercent a job.image1)] hk hlen
  have hstep : interpolatorStep rife s =
      writeOutputs { s with processing_queue := rest } job a a
        [Event.dequeued job, Event.ratioComputed (diffPercent a job.image1)] := by
    simp [interpolatorStep, hrun, hpause, hq, ha, hnlt]
  rw [hw] at hstep
  refine ⟨_, _, hstep, rfl, fun rife2 => ?_, ?_, ?_⟩
  · simp [interpolatorStep, hrun, hpause, hq, ha, hnlt]
  · intro e he
    have he' : e = Event.dequeued job ∨
        e = Event.ratioComputed (diffPercent a job.image1) ∨ e = Event.wrote 0 a ∨
        e = Event.wrote (job.frame_index * 2 - 1) a ∨
        e = Event.wrote (job.frame_index * 2) job.image1 := by
      by_cases hk1 : job.frame_index = 1
      · simp [hk1] at he ⊢
        tauto
      · simp [hk1] at he
        tauto
    rcases he' with rfl | rfl | rfl | rfl | rfl <;> exact ⟨rfl, rfl, rfl⟩
  · exact framesAfter_slot_odd _ _ _ _ hk hlen

/-- Numeric bound used by witnesses: the test pair's ratio 100 lies below a
threshold of 200. -/
theorem diffPercent_AB_lt_200 : diffPercent imgA imgB < 200 := by
  rw [diffPercent_imgA_imgB]; norm_num

/-- Numeric bound used by witnesses: the test pair's ratio 100 reaches a
threshold of 50. -/
theorem le_diffPercent_AB : (50 : ℚ) ≤ diffPercent imgA imgB := by
  rw [diffPercent_imgA_imgB]; norm_num

/-- Concrete evaluation of one full iteration: from `wInit`, the worker
dequeues `job1`, constructs and caches the stub processor, synthesises, and
fills slots 0, 1 and 2, ending in `wOut1` with events `evs1`. -/
theorem stepEq1 : interpolatorStep stubRife wInit = (StepResult.cont wOut1, evs1) := by
  have h100 : (100 : ℚ) < 200 := by norm_num
  simp [interpolatorStep, wInit, wOut1, evs1, job1, h100, selectProcessor,
    ALGORITHM_CLASSES, writeOutputs, setSlot, List.lookup, stubRife, stubProcessor,
    diffPercent_imgA_imgB]

/-- C1 witness: concrete slots 1 and 2 are populated and slot 2 holds the
second input frame. -/
theorem successful_job_populates_slots_witness :
    (∃ img, wOut1.processed_frames[job1.frame_index * 2 - 1]? = some (some img)) ∧
    wOut1.processed_frames[job1.frame_index * 2]? = some (some job1.image1) :=
  successful_job_populates_slots stubRife wInit job1 [] imgA wOut1 evs1
    rfl rfl rfl rfl (by decide) stepEq1

/-- C2 witness: the threshold dichotomy evaluated on the concrete run. -/
theorem threshold_branch_slot_value_witness :
    (diffPercent imgA job1.image1 < job1.difference_threshold →
      ∃ p cache2, selectProcessor stubRife wInit.processor_objects job1.algorithm = some (p, cache2) ∧
        wOut1.processed_frames[job1.frame_index * 2 - 1]? = some (some (p.process imgA job1.image1))) ∧
    (job1.difference_threshold ≤ diffPercent imgA job1.image1 →
      wOut1.processed_frames[job1.frame_index * 2 - 1]? = some (some imgA)) :=
  threshold_branch_slot_value stubRife wInit job1 [] imgA wOut1 evs1
    rfl rfl rfl rfl (by decide) stepEq1

/-- C5 witness: after the concrete frame-1 job, slot 0 holds its first
input frame. -/
theorem slot_zero_first_job_only_witness :
    wOut1.processed_frames[0]? = some (some imgA) :=
  (slot_zero_first_job_only stubRife wInit job1 [] imgA
    rfl rfl rfl rfl (by decide)).1 rfl wOut1 evs1 stepEq1

/-- C8 witness: the concrete job naming "nope" halts the worker with the
queue tail, slots and cache untouched. -/
theorem construction_failure_terminates_witness :
    interpolatorStep stubRife wBad =
      (StepResult.halt { wBad with processing_queue := [] },
       [Event.dequeued jobBad, Event.ratioComputed (diffPercent imgA jobBad.image1),
        Event.registryAccess jobBad.algorithm]) :=
  (construction_failure_terminates stubRife wBad jobBad [] imgA
    rfl rfl rfl rfl diffPercent_AB_lt_200 rfl).1

/-- C10 witness: the concrete scene-change job with an unknown algorithm
name completes and bypasses the registry. -/
theorem scene_change_bypasses_registry_witness :
    ∃ s2 evs, interpolatorStep stubRife wScene = (StepResult.cont s2, evs) ∧
      s2.processor_objects = wScene.processor_objects ∧
      (∀ rife2, interpolatorStep rife2 wScene = interpolatorStep stubRife wScene) ∧
      (∀ e ∈ evs, e.isRegistryAccess = false ∧ e.isConstruct = false ∧
        e.isInvoke = false) ∧
      s2.processed_frames[jobScene.frame_index * 2 - 1]? = some (some imgA) :=
  scene_change_bypasses_registry stubRife wScene jobScene [] imgA
    rfl rfl rfl rfl (by decide) le_diffPercent_AB (by decide)
